import Mathlib

/-!
Shallow embedding of `manifest-verifier/verify_manifest.py` and proofs about
its validation logic.

Modelling conventions:
* Python strings are modelled as `List Char` (`Str` below); `str` converts a
  Lean string literal.
* Python dicts used as membership sets (`spdx_data["licenses"]`,
  `spdx_data["exceptions"]`, whose values are always `True`) are modelled as
  lists of identifiers with list membership.
* Python dict field access on manifest stanzas is modelled with `Option`
  fields: a missing key is `none`, and `d["k"]` on a missing key (a Python
  `KeyError`) makes the embedded function return `none`.
* Fallible functions return `Option Nat`: `some n` is a normal return of the
  error count `n`, `none` is a raised exception.
* The git collaborator (GitPython) and the network fetch are external
  effects; they are modelled as explicit inputs (`GitEnv`, the fetched SPDX
  identifier lists).
-/

namespace VerifyManifest

/-- Python strings are modelled as lists of characters. -/
abbrev Str : Type := List Char

/-- Conversion from a Lean string literal to the `Str` model. -/
def str (s : String) : Str := s.data

/-- Python `s.split(" ")`: split at every single space, keeping empty
pieces; on the empty string it yields one empty piece, exactly as
`"".split(" ") == [""]` in Python. -/
def splitSp : Str → List Str
  | [] => [[]]
  | c :: rest =>
    if c = ' ' then [] :: splitSp rest
    else
      match splitSp rest with
      | [] => [[c]]
      | t :: ts => (c :: t) :: ts

/-- A character stripped by `strip("()")`. -/
def parenChar (c : Char) : Bool := c = '(' || c = ')'

/-- Python `t.strip("()")`: drop `(` and `)` characters from both ends. -/
def pstrip (t : Str) : Str :=
  ((t.dropWhile parenChar).reverse.dropWhile parenChar).reverse

/-- The exact membership test `licenses[i] in ["and", "AND", "or", "OR"]`
from `check_license_tag` (only these two spellings are keywords). -/
def isAndOr (t : Str) : Bool :=
  decide (t = str "and" ∨ t = str "AND" ∨ t = str "or" ∨ t = str "OR")

/-- The exact membership test `licenses[i] in ["with", "WITH"]` from
`check_license_tag`. -/
def isWith (t : Str) : Bool :=
  decide (t = str "with" ∨ t = str "WITH")

/-- Last character of a token, `t[-1]` in Python (`none` when empty). -/
def lastC : Str → Option Char
  | [] => none
  | [c] => some c
  | _ :: c :: rest => lastC (c :: rest)

/-- `if licenses[i][0] == "(": paren_depth += 1` applied to depth `pd`. -/
def pInc (c : Char) (pd : Int) : Int := if c = '(' then pd + 1 else pd

/-- `if licenses[i][-1] == ")": paren_depth -= 1` applied to depth `pd`. -/
def pDec (t : Str) (pd : Int) : Int := if lastC t = some ')' then pd - 1 else pd

/-- The SPDX catalog built by `load_spdx_data`: the two dicts mapping
identifier to `True` are modelled as identifier lists. -/
structure SpdxData where
  licenses : List Str
  exceptions : List Str

/-- `load_spdx_data(ignore_spdx)`.  The two network fetches are modelled as
the already-decoded identifier lists `fetched_licenses` and
`fetched_exceptions`; the loader inserts every fetched license id, then every
ignore id, into the license set, and every fetched exception id into the
exception set. -/
def load_spdx_data (fetched_licenses ignore_spdx fetched_exceptions : List Str) :
    SpdxData :=
  { licenses := fetched_licenses ++ ignore_spdx
    exceptions := fetched_exceptions }

/-- One iteration of the token loop of `check_license_tag`, on token `t`
with state (error count `ec`, `license_exception_flag` `flag`, `paren_depth`
`pd`, `last_paren_depth` `lpd`).  Returns `none` on the `IndexError` raised
by `licenses[i][0]` when the token is empty, otherwise the updated state
`(error count, flag, next paren_depth, next last_paren_depth)`. -/
def checkTok (sd : SpdxData) (t : Str) (ec : Nat) (flag : Bool) (pd lpd : Int) :
    Option (Nat × Bool × Int × Int) :=
  match t with
  | [] => none
  | c :: rest =>
    if isAndOr (c :: rest) then
      some (ec, flag, pDec (c :: rest) (pInc c pd), pInc c pd)
    else if isWith (c :: rest) then
      some (ec, true, pDec (c :: rest) (pInc c pd), pInc c pd)
    else if flag then
      some ((if pstrip (c :: rest) ∈ sd.exceptions then ec else ec + 1),
            (if pInc c pd ≤ lpd then false else true),
            pDec (c :: rest) (pInc c pd), pInc c pd)
    else
      some ((if pstrip (c :: rest) ∈ sd.licenses then ec else ec + 1), flag,
            pDec (c :: rest) (pInc c pd), pInc c pd)

/-- The token loop of `check_license_tag` over the whole token list. -/
def checkTokens (sd : SpdxData) : List Str → Nat → Bool → Int → Int → Option Nat
  | [], ec, _flag, _pd, _lpd => some ec
  | t :: rest, ec, flag, pd, lpd =>
    match checkTok sd t ec flag pd lpd with
    | none => none
    | some (ec1, flag1, pd1, lpd1) => checkTokens sd rest ec1 flag1 pd1 lpd1

/-- `check_license_tag(spdx_data, cur_license)`: split on spaces and run the
validation loop from error count 0, cleared flag and zero depths.  `none`
models a raised `IndexError`. -/
def check_license_tag (sd : SpdxData) (cur_license : Str) : Option Nat :=
  checkTokens sd (splitSp cur_license) 0 false 0 0

/-- Python `s.lower()` restricted to the ASCII case folding performed by
`Char.toLower`. -/
def strLower (s : Str) : Str := s.map Char.toLower

/-- The git state of a single submodule, as read by GitPython:
`submodule.remotes.origin.url`, ref resolution `submodule.commit(ref).hexsha`
(`none` models the raised `gitdb.exc.BadName`), and
`submodule.head.commit.hexsha`. -/
structure Submodule where
  originUrl : Str
  resolve : Str → Option Str
  headHexsha : Str

/-- The git and filesystem collaborators: `os.path.exists` for paths
relative to the manifest directory, `git.Repo` opened at a submodule path,
and the repository root's submodule path list enumerated by
`get_all_submodules`. -/
structure GitEnv where
  pathExists : Str → Bool
  submoduleAt : Str → Submodule
  submodulePaths : List Str

/-- A `repository` stanza; a missing key is `none`. -/
structure Repository where
  type? : Option Str
  url? : Option Str
  path? : Option Str

/-- A dependency stanza; a missing key is `none`. -/
structure Dependency where
  name? : Option Str
  version? : Option Str
  license? : Option Str
  repository? : Option Repository

/-- The manifest root document; a missing key is `none`. -/
structure Manifest where
  name? : Option Str
  version? : Option Str
  description? : Option Str
  license? : Option Str
  dependencies? : Option (List Dependency)

/-- `validate_submodule_repo(dep, manifest_dir)`.  Dict accesses
`dep["repository"]`, `repo["path"]`, `repo["url"]`, `dep["version"]` raise
`KeyError` (`none`) when missing.  The URL comparison lowercases both full
strings.  Ref resolution tries `dep["version"]`, then — whenever the
resolved hash is the sentinel `"unknown"` — the lowercased version; if the
lowercase retry succeeds the source calls `print_warning` with a single
argument although `print_warning(indent_level, warn_str)` requires two, so
that path raises `TypeError` (`none`).  Finally the HEAD hash is compared
with the resolved hash. -/
def validate_submodule_repo (env : GitEnv) (dep : Dependency) : Option Nat :=
  match dep.repository? with
  | none => none
  | some repo =>
    match repo.path? with
    | none => none
    | some p =>
      match repo.url? with
      | none => none
      | some url =>
        match dep.version? with
        | none => none
        | some version =>
          let sub := env.submoduleAt p
          let ec : Nat := if strLower sub.originUrl = strLower url then 0 else 1
          let mh : Str := ((sub.resolve version).getD (str "unknown"))
          match (if mh = str "unknown" then
                   match sub.resolve (strLower version) with
                   | some _ => none
                   | none => some mh
                 else some mh) with
          | none => none
          | some mh2 =>
            some (ec + (if sub.headHexsha = mh2 then 0 else 1))

/-- `validate_repository(dep, manifest_dir)`.  When `"type"` is missing the
source prints an error and increments the count, but the very next statement
`"git" != repo["type"]` raises `KeyError` (`none`).  A missing `"url"` is
one error; a present `"path"` that does not exist on disk is one error,
while an existing path delegates to `validate_submodule_repo`. -/
def validate_repository (env : GitEnv) (dep : Dependency) : Option Nat :=
  match dep.repository? with
  | none => none
  | some repo =>
    match repo.type? with
    | none => none
    | some t =>
      let ec1 : Nat := if t = str "git" then 0 else 1
      let ec2 : Nat := ec1 + (if repo.url? = none then 1 else 0)
      match repo.path? with
      | none => some ec2
      | some p =>
        if env.pathExists p then
          match validate_submodule_repo env dep with
          | none => none
          | some e => some (ec2 + e)
        else some (ec2 + 1)

/-- `validate_dependency(dependency, spdx_data)`: one error per missing
`name`/`version`/`license`; a present license string is checked with
`check_license_tag` (whose `IndexError` propagates). -/
def validate_dependency (sd : SpdxData) (dep : Dependency) : Option Nat :=
  let e1 : Nat := if dep.name? = none then 1 else 0
  let e2 : Nat := e1 + (if dep.version? = none then 1 else 0)
  match dep.license? with
  | none => some (e2 + 1)
  | some lic =>
    match check_license_tag sd lic with
    | none => none
    | some c => some (e2 + c)

/-- `list_repo_paths_in_manifest(manifest)`: the `path` of every dependency
that has a `repository` stanza with a `path`. -/
def list_repo_paths_in_manifest (m : Manifest) : List Str :=
  match m.dependencies? with
  | none => []
  | some deps => deps.filterMap (fun d => d.repository?.bind (fun r => r.path?))

/-- `get_all_submodules(repo_root_path, ignored_paths)`: every on-disk
submodule path that is not ignored. -/
def get_all_submodules (env : GitEnv) (ignored_paths : List Str) : List Str :=
  env.submodulePaths.filter (fun p => decide (p ∉ ignored_paths))

/-- `check_for_missing_submodules(manifest_repos, git_submodules)`: one
error for every on-disk submodule absent from the manifest's declared
paths. -/
def check_for_missing_submodules (manifest_repos git_submodules : List Str) : Nat :=
  git_submodules.foldl (fun ec s => if s ∈ manifest_repos then ec else ec + 1) 0

/-- The dependency loop of `validate_manifest`: for each dependency run
`validate_dependency`, then `validate_repository` when a `repository` stanza
is present, accumulating the count (exceptions propagate as `none`). -/
def validate_deps (env : GitEnv) (sd : SpdxData) :
    List Dependency → Nat → Option Nat
  | [], ec => some ec
  | dep :: rest, ec =>
    match validate_dependency sd dep with
    | none => none
    | some e1 =>
      match dep.repository? with
      | none => validate_deps env sd rest (ec + e1)
      | some _ =>
        match validate_repository env dep with
        | none => none
        | some e2 => validate_deps env sd rest (ec + e1 + e2)

/-- `validate_manifest(manifest_path, ignored_paths, spdx_data)` after the
YAML parse (the parsed document is the `Manifest` input; a structural parse
failure is outside this function's count).  One error per missing root
field, the root license checked with `check_license_tag`, the dependency
loop, then the missing-submodule reconciliation. -/
def validate_manifest (env : GitEnv) (ignored_paths : List Str) (sd : SpdxData)
    (m : Manifest) : Option Nat :=
  let e1 : Nat := if m.name? = none then 1 else 0
  let e2 : Nat := e1 + (if m.version? = none then 1 else 0)
  let e3 : Nat := e2 + (if m.description? = none then 1 else 0)
  match (match m.license? with
         | none => some (e3 + 1)
         | some lic => (check_license_tag sd lic).map (fun c => e3 + c)) with
  | none => none
  | some e4 =>
    match (match m.dependencies? with
           | none => some e4
           | some deps => validate_deps env sd deps e4) with
    | none => none
    | some e5 =>
      some (e5 + check_for_missing_submodules (list_repo_paths_in_manifest m)
                   (get_all_submodules env ignored_paths))

/-- The exit of `main()`: `sys.exit(error_count > 0)` — the Python boolean
becomes exit status 1 or 0.  `none` models a validation run that raised. -/
def main_exit_code (env : GitEnv) (ignored_paths : List Str) (sd : SpdxData)
    (m : Manifest) : Option Nat :=
  match validate_manifest env ignored_paths sd m with
  | none => none
  | some ec => some (if 0 < ec then 1 else 0)

/-- A plain identifier token: nonempty and free of `(` and `)` characters,
so that paren-depth tracking and `strip("()")` leave it unchanged. -/
def goodId (t : Str) : Bool := !t.isEmpty && t.all (fun c => !parenChar c)

/-- A well-formed license expression over catalog `sd`, as a token list:
identifiers from the license set joined by the exact keywords
`and`/`AND`/`or`/`OR`, optionally ending in `with`/`WITH` followed by an
identifier from the exception set.  Identifiers are plain (`goodId`) and are
not themselves the WITH keyword. -/
inductive GoodExpr (sd : SpdxData) : List Str → Prop
  | last (x : Str) (hg : goodId x = true) (hw : isWith x = false)
      (hx : x ∈ sd.licenses) : GoodExpr sd [x]
  | withTail (x w e : Str) (hg : goodId x = true) (hwx : isWith x = false)
      (hx : x ∈ sd.licenses) (hw : isWith w = true) (hge : goodId e = true)
      (he : e ∈ sd.exceptions) : GoodExpr sd [x, w, e]
  | cons (x k : Str) (rest : List Str) (hg : goodId x = true)
      (hwx : isWith x = false) (hx : x ∈ sd.licenses) (hk : isAndOr k = true)
      (h : GoodExpr sd rest) : GoodExpr sd (x :: k :: rest)

/-! ### Helper lemmas -/

lemma goodId_ne_nil (t : Str) (h : goodId t = true) : t ≠ [] := by
  intro he
  rw [he] at h
  exact absurd h (by decide)

lemma goodId_mem (t : Str) (h : goodId t = true) :
    ∀ c ∈ t, parenChar c = false := by
  intro c hc
  simp only [goodId, Bool.and_eq_true, List.all_eq_true] at h
  simpa using h.2 c hc

lemma lastC_mem : ∀ (t : Str) (c : Char), lastC t = some c → c ∈ t := by
  intro t
  induction t with
  | nil => intro c h; cases h
  | cons a rest ih =>
    intro c h
    cases rest with
    | nil =>
      simp [lastC] at h
      simp [h]
    | cons b tl =>
      have h' : lastC (b :: tl) = some c := h
      exact List.mem_cons_of_mem a (ih c h')

lemma pstrip_eq_self (t : Str) (h : goodId t = true) : pstrip t = t := by
  have hall := goodId_mem t h
  have h1 : t.dropWhile parenChar = t := by
    cases t with
    | nil => rfl
    | cons c rest =>
      have hc : parenChar c = false := hall c (by simp)
      simp [List.dropWhile_cons, hc]
  rw [pstrip, h1]
  have h2 : t.reverse.dropWhile parenChar = t.reverse := by
    cases hrv : t.reverse with
    | nil => rfl
    | cons c tl =>
      have hc : c ∈ t := by
        have hmem : c ∈ t.reverse := by rw [hrv]; simp
        simpa using hmem
      simp [List.dropWhile_cons, hall c hc]
  rw [h2, List.reverse_reverse]

lemma checkTok_andor (sd : SpdxData) (t : Str) (ec : Nat) (flag : Bool)
    (pd lpd : Int) (h : isAndOr t = true) :
    checkTok sd t ec flag pd lpd = some (ec, flag, pd, pd) := by
  rcases of_decide_eq_true h with h1 | h1 | h1 | h1 <;> subst h1 <;> rfl

lemma checkTok_with (sd : SpdxData) (t : Str) (ec : Nat) (flag : Bool)
    (pd lpd : Int) (h : isWith t = true) :
    checkTok sd t ec flag pd lpd = some (ec, true, pd, pd) := by
  rcases of_decide_eq_true h with h1 | h1 <;> subst h1 <;> rfl

lemma checkTok_id (sd : SpdxData) (t : Str) (ec : Nat) (pd lpd : Int)
    (hg : goodId t = true) (ha : isAndOr t = false) (hw : isWith t = false) :
    checkTok sd t ec false pd lpd
      = some ((if t ∈ sd.licenses then ec else ec + 1), false, pd, pd) := by
  cases t with
  | nil => exact absurd hg (by decide)
  | cons c rest =>
    have hc : c ≠ '(' := by
      intro hcEq
      have := goodId_mem _ hg c (by simp)
      rw [hcEq] at this
      exact absurd this (by decide)
    have hlast : lastC (c :: rest) ≠ some ')' := by
      intro hl
      have := goodId_mem _ hg ')' (lastC_mem _ _ hl)
      exact absurd this (by decide)
    have hps : pstrip (c :: rest) = c :: rest := pstrip_eq_self _ hg
    simp [checkTok, ha, hw, pInc, pDec, hps, hc, hlast]

lemma checkTok_exc (sd : SpdxData) (t : Str) (ec : Nat) (pd : Int)
    (hg : goodId t = true) (ha : isAndOr t = false) (hw : isWith t = false) :
    checkTok sd t ec true pd pd
      = some ((if t ∈ sd.exceptions then ec else ec + 1), false, pd, pd) := by
  cases t with
  | nil => exact absurd hg (by decide)
  | cons c rest =>
    have hc : c ≠ '(' := by
      intro hcEq
      have := goodId_mem _ hg c (by simp)
      rw [hcEq] at this
      exact absurd this (by decide)
    have hlast : lastC (c :: rest) ≠ some ')' := by
      intro hl
      have := goodId_mem _ hg ')' (lastC_mem _ _ hl)
      exact absurd this (by decide)
    have hps : pstrip (c :: rest) = c :: rest := pstrip_eq_self _ hg
    simp [checkTok, ha, hw, pInc, pDec, hps, hc, hlast]

lemma checkTokens_nil (sd : SpdxData) (ec : Nat) (flag : Bool) (pd lpd : Int) :
    checkTokens sd [] ec flag pd lpd = some ec := rfl

lemma checkTokens_cons (sd : SpdxData) (t : Str) (rest : List Str) (ec : Nat)
    (flag : Bool) (pd lpd : Int) (a : Nat) (b : Bool) (c d : Int)
    (h : checkTok sd t ec flag pd lpd = some (a, b, c, d)) :
    checkTokens sd (t :: rest) ec flag pd lpd = checkTokens sd rest a b c d := by
  simp [checkTokens, h]

/-- Processing one plain license identifier (or an `and`/`or` keyword) with
the flag cleared and balanced depths leaves the state unchanged. -/
lemma checkTokens_id_step (sd : SpdxData) (x : Str) (rest : List Str)
    (hg : goodId x = true) (hwx : isWith x = false) (hx : x ∈ sd.licenses)
    (ec : Nat) (pd : Int) :
    checkTokens sd (x :: rest) ec false pd pd = checkTokens sd rest ec false pd pd := by
  cases ha : isAndOr x with
  | true =>
    exact checkTokens_cons sd x rest ec false pd pd ec false pd pd
      (checkTok_andor sd x ec false pd pd ha)
  | false =>
    rw [checkTokens_cons sd x rest ec false pd pd
          (if x ∈ sd.licenses then ec else ec + 1) false pd pd
          (checkTok_id sd x ec pd pd hg ha hwx),
        if_pos hx]

/-- A `WITH` keyword followed by a catalog exception contributes no error
and clears the flag when the paren depth is balanced. -/
lemma checkTokens_withPair (sd : SpdxData) (w e : Str) (hw : isWith w = true)
    (hge : goodId e = true) (he : e ∈ sd.exceptions) (ec : Nat) (pd : Int) :
    checkTokens sd [w, e] ec false pd pd = some ec := by
  rw [checkTokens_cons sd w [e] ec false pd pd ec true pd pd
        (checkTok_with sd w ec false pd pd hw)]
  cases hae : isAndOr e with
  | true =>
    rw [checkTokens_cons sd e [] ec true pd pd ec true pd pd
          (checkTok_andor sd e ec true pd pd hae)]
    rfl
  | false =>
    cases hwe : isWith e with
    | true =>
      rw [checkTokens_cons sd e [] ec true pd pd ec true pd pd
            (checkTok_with sd e ec true pd pd hwe)]
      rfl
    | false =>
      rw [checkTokens_cons sd e [] ec true pd pd
            (if e ∈ sd.exceptions then ec else ec + 1) false pd pd
            (checkTok_exc sd e ec pd hge hae hwe),
          if_pos he]
      rfl

/-- The token loop reports no error on a well-formed expression over the
catalog, from any error count and balanced depths. -/
lemma checkTokens_goodExpr (sd : SpdxData) {ts : List Str} (h : GoodExpr sd ts) :
    ∀ (ec : Nat) (pd : Int), checkTokens sd ts ec false pd pd = some ec := by
  induction h with
  | last x hg hw hx =>
    intro ec pd
    rw [checkTokens_id_step sd x [] hg hw hx ec pd]
    rfl
  | withTail x w e hg hwx hx hw hge he =>
    intro ec pd
    rw [checkTokens_id_step sd x [w, e] hg hwx hx ec pd]
    exact checkTokens_withPair sd w e hw hge he ec pd
  | cons x k rest hg hwx hx hk hrest ih =>
    intro ec pd
    rw [checkTokens_id_step sd x (k :: rest) hg hwx hx ec pd,
        checkTokens_cons sd k rest ec false pd pd ec false pd pd
          (checkTok_andor sd k ec false pd pd hk)]
    exact ih ec pd

lemma foldl_missing_count (a : List Str) :
    ∀ (b : List Str) (n : Nat),
      b.foldl (fun ec s => if s ∈ a then ec else ec + 1) n
        = n + (b.filter (fun s => decide (s ∉ a))).length := by
  intro b
  induction b with
  | nil => intro n; simp
  | cons s b ih =>
    intro n
    by_cases hs : s ∈ a
    · rw [List.foldl_cons, if_pos hs, ih n]
      simp [List.filter_cons, hs]
    · rw [List.foldl_cons, if_neg hs, ih (n + 1)]
      have hp : decide (s ∉ a) = true := by simp [hs]
      simp only [List.filter_cons, hp, if_true, List.length_cons]
      omega

lemma splitSp_ne_nil (s : Str) : splitSp s ≠ [] := by
  induction s with
  | nil => simp [splitSp]
  | cons c rest ih =>
    by_cases hc : c = ' '
    · simp [splitSp, hc]
    · simp only [splitSp, if_neg hc]
      cases h : splitSp rest with
      | nil => exact absurd h ih
      | cons t ts => simp

lemma splitSp_append (a b : Str) :
    splitSp (a ++ ' ' :: b) = splitSp a ++ splitSp b := by
  induction a with
  | nil => simp [splitSp]
  | cons c a ih =>
    by_cases hc : c = ' '
    · simp [List.cons_append, splitSp, if_pos hc, ih]
    · cases h : splitSp a with
      | nil => exact absurd h (splitSp_ne_nil a)
      | cons t ts =>
        have h2 : splitSp (a ++ ' ' :: b) = t :: (ts ++ splitSp b) := by
          rw [ih, h]
          rfl
        rw [List.cons_append, splitSp, if_neg hc, h2, splitSp, if_neg hc, h]
        rfl

lemma splitSp_single (s : Str) (hne : s ≠ []) (h : ∀ c ∈ s, c ≠ ' ') :
    splitSp s = [s] := by
  induction s with
  | nil => exact absurd rfl hne
  | cons c rest ih =>
    have hc : c ≠ ' ' := h c (by simp)
    cases rest with
    | nil => simp [splitSp, hc]
    | cons b tl =>
      have htl : splitSp (b :: tl) = [b :: tl] :=
        ih (by simp) (fun x hx => h x (by simp [hx]))
      rw [splitSp, if_neg hc, htl]

lemma checkTok_isSome (sd : SpdxData) (t : Str) (ht : t ≠ []) (ec : Nat)
    (flag : Bool) (pd lpd : Int) :
    (checkTok sd t ec flag pd lpd).isSome = true := by
  cases t with
  | nil => exact absurd rfl ht
  | cons c rest =>
    by_cases h1 : isAndOr (c :: rest) = true <;>
      by_cases h2 : isWith (c :: rest) = true <;>
        cases flag <;> simp [checkTok, h1, h2]

lemma checkTokens_isSome (sd : SpdxData) :
    ∀ (ts : List Str), (∀ t ∈ ts, t ≠ []) →
      ∀ (ec : Nat) (flag : Bool) (pd lpd : Int),
        (checkTokens sd ts ec flag pd lpd).isSome = true := by
  intro ts
  induction ts with
  | nil => intro _ ec flag pd lpd; rfl
  | cons t rest ih =>
    intro h ec flag pd lpd
    have ht : t ≠ [] := h t (by simp)
    obtain ⟨q, hq⟩ :=
      Option.isSome_iff_exists.mp (checkTok_isSome sd t ht ec flag pd lpd)
    obtain ⟨a, b, c, d⟩ := q
    rw [checkTokens_cons sd t rest ec flag pd lpd a b c d hq]
    exact ih (fun x hx => h x (List.mem_cons_of_mem t hx)) a b c d

lemma checkTokens_trailing_with (sd : SpdxData) (w : Str) (hw : isWith w = true) :
    ∀ (ts : List Str) (ec : Nat) (flag : Bool) (pd lpd : Int),
      checkTokens sd (ts ++ [w]) ec flag pd lpd
        = checkTokens sd ts ec flag pd lpd := by
  intro ts
  induction ts with
  | nil =>
    intro ec flag pd lpd
    rw [List.nil_append,
        checkTokens_cons sd w [] ec flag pd lpd ec true pd pd
          (checkTok_with sd w ec flag pd lpd hw)]
    rfl
  | cons t rest ih =>
    intro ec flag pd lpd
    rw [List.cons_append]
    cases h : checkTok sd t ec flag pd lpd with
    | none => simp [checkTokens, h]
    | some q =>
      obtain ⟨a, b, c, d⟩ := q
      rw [checkTokens_cons sd t (rest ++ [w]) ec flag pd lpd a b c d h,
          checkTokens_cons sd t rest ec flag pd lpd a b c d h]
      exact ih a b c d

/-! ### Claim theorems -/

/-- C1 counterexample: the mixed-case keyword `And` is not in the skip list
`["and", "AND", "or", "OR"]`, so it is validated as a license identifier and
counted as an error even though every real identifier (`MIT`) is in the
catalog — the claim's predicted result of zero errors is wrong. -/
theorem mixed_case_keyword_counted_as_error :
    check_license_tag ⟨[str "MIT"], []⟩ (str "MIT And MIT") = some 1 := by
  decide

/-- C1 amended: an expression of catalog identifiers joined by the keywords
written exactly as `and`/`AND`/`or`/`OR`, optionally ending with
`with`/`WITH` and a catalog exception, validates with zero errors (the
all-lowercase and all-uppercase keyword spellings are skipped, not
validated; mixed-case spellings are not keywords). -/
theorem valid_expression_zero_errors (sd : SpdxData) (s : Str)
    (h : GoodExpr sd (splitSp s)) : check_license_tag sd s = some 0 :=
  checkTokens_goodExpr sd h 0 0

/-- Witness for C1 at a concrete well-formed expression. -/
theorem valid_expression_zero_errors_w :
    check_license_tag ⟨[str "MIT", str "Apache-2.0"], [str "LLVM-exception"]⟩
      (str "MIT and Apache-2.0 WITH LLVM-exception") = some 0 := by
  apply valid_expression_zero_errors
  have hs : splitSp (str "MIT and Apache-2.0 WITH LLVM-exception")
      = [str "MIT", str "and", str "Apache-2.0", str "WITH",
         str "LLVM-exception"] := by decide
  rw [hs]
  exact GoodExpr.cons (str "MIT") (str "and") _ (by decide) (by decide)
    (by decide) (by decide)
    (GoodExpr.withTail (str "Apache-2.0") (str "WITH") (str "LLVM-exception")
      (by decide) (by decide) (by decide) (by decide) (by decide) (by decide))

/-- C3 counterexample: on the empty expression `"".split(" ")` is `[""]`,
so the loop reads `licenses[0][0]` of an empty token and raises
`IndexError` (`none`) — it does not return zero errors. -/
theorem empty_expression_raises :
    check_license_tag ⟨[], []⟩ (str "") = none := by decide

/-- C3 amended: `check_license_tag` completes (returns an error count)
exactly on expressions all of whose space-split tokens are nonempty; the
empty string and any expression with leading, trailing or doubled spaces
raise `IndexError` instead of being accepted with zero errors. -/
theorem checker_total_on_nonempty_tokens (sd : SpdxData) (s : Str)
    (h : ∀ t ∈ splitSp s, t ≠ ([] : Str)) :
    (check_license_tag sd s).isSome = true :=
  checkTokens_isSome sd (splitSp s) h 0 false 0 0

/-- Witness for C3 at a concrete one-token expression. -/
theorem checker_total_on_nonempty_tokens_w :
    (check_license_tag ⟨[str "MIT"], []⟩ (str "MIT")).isSome = true :=
  checker_total_on_nonempty_tokens ⟨[str "MIT"], []⟩ (str "MIT") (by decide)

/-- C7: an ignore-list identifier is merged into the license set only, so a
single-token expression naming it validates with zero errors even when it is
absent from the fetched license data, while the same identifier after `WITH`
is looked up in the exception set and counted as one error when absent from
the fetched exception data. -/
theorem ignore_ids_licenses_not_exceptions (fl ign fe : List Str) (x L : Str)
    (hx : x ∈ ign) (hxe : x ∉ fe)
    (hgx : goodId x = true) (hsx : ∀ c ∈ x, c ≠ ' ')
    (hax : isAndOr x = false) (hwx : isWith x = false)
    (hL : L ∈ fl) (hgL : goodId L = true) (hsL : ∀ c ∈ L, c ≠ ' ')
    (hwL : isWith L = false) :
    check_license_tag (load_spdx_data fl ign fe) x = some 0 ∧
      check_license_tag (load_spdx_data fl ign fe)
          (L ++ ' ' :: (str "WITH" ++ ' ' :: x)) = some 1 := by
  have hxlic : x ∈ (load_spdx_data fl ign fe).licenses :=
    List.mem_append.mpr (Or.inr hx)
  have hLlic : L ∈ (load_spdx_data fl ign fe).licenses :=
    List.mem_append.mpr (Or.inl hL)
  constructor
  · rw [check_license_tag, splitSp_single x (goodId_ne_nil x hgx) hsx,
        checkTokens_id_step (load_spdx_data fl ign fe) x [] hgx hwx hxlic 0 0]
    rfl
  · rw [check_license_tag, splitSp_append L (str "WITH" ++ ' ' :: x),
        splitSp_append (str "WITH") x,
        splitSp_single L (goodId_ne_nil L hgL) hsL,
        splitSp_single x (goodId_ne_nil x hgx) hsx]
    have hWith : splitSp (str "WITH") = [str "WITH"] := by decide
    rw [hWith]
    rw [show ([L] ++ ([str "WITH"] ++ [x])) = L :: [str "WITH", x] from rfl]
    rw [checkTokens_id_step (load_spdx_data fl ign fe) L [str "WITH", x]
          hgL hwL hLlic 0 0,
        checkTokens_cons (load_spdx_data fl ign fe) (str "WITH") [x] 0 false 0 0
          0 true 0 0
          (checkTok_with (load_spdx_data fl ign fe) (str "WITH") 0 false 0 0
            (by decide)),
        checkTokens_cons (load_spdx_data fl ign fe) x [] 0 true 0 0
          (if x ∈ (load_spdx_data fl ign fe).exceptions then 0 else 0 + 1)
          false 0 0
          (checkTok_exc (load_spdx_data fl ign fe) x 0 0 hgx hax hwx)]
    have hxe' : x ∉ (load_spdx_data fl ign fe).exceptions := hxe
    rw [if_neg hxe']
    rfl

/-- Witness for C7 at a concrete ignore identifier. -/
theorem ignore_ids_licenses_not_exceptions_w :
    check_license_tag (load_spdx_data [str "MIT"] [str "Custom-1"] [])
        (str "Custom-1") = some 0 ∧
      check_license_tag (load_spdx_data [str "MIT"] [str "Custom-1"] [])
          (str "MIT" ++ ' ' :: (str "WITH" ++ ' ' :: str "Custom-1"))
        = some 1 :=
  ignore_ids_licenses_not_exceptions [str "MIT"] [str "Custom-1"] []
    (str "Custom-1") (str "MIT") (by decide) (by decide) (by decide)
    (by decide) (by decide) (by decide) (by decide) (by decide) (by decide)
    (by decide)

/-- C10: appending a trailing `with`/`WITH` keyword to any expression does
not change the result — the in-exception flag set by the final `WITH` is
discarded when the token list ends, so no error is emitted for the missing
exception operand and `MIT WITH` validates identically to `MIT`. -/
theorem trailing_with_ignored (sd : SpdxData) (s w : Str)
    (hw : isWith w = true) :
    check_license_tag sd (s ++ ' ' :: w) = check_license_tag sd s := by
  have hsw : splitSp w = [w] := by
    rcases of_decide_eq_true hw with h1 | h1 <;> subst h1 <;> decide
  rw [check_license_tag, check_license_tag, splitSp_append s w, hsw,
      checkTokens_trailing_with sd w hw (splitSp s) 0 false 0 0]

/-- Witness for C10: `MIT WITH` gives the same result as `MIT`. -/
theorem trailing_with_ignored_w :
    check_license_tag ⟨[str "MIT"], []⟩ (str "MIT" ++ ' ' :: str "WITH")
      = check_license_tag ⟨[str "MIT"], []⟩ (str "MIT") :=
  trailing_with_ignored ⟨[str "MIT"], []⟩ (str "MIT") (str "WITH") (by decide)

/-- C6: `check_for_missing_submodules` returns exactly one error per on-disk
submodule path absent from the manifest-declared paths (the length of the
filtered undeclared list), and zero when every on-disk path is declared. -/
theorem check_missing_counts_undeclared (a b : List Str) :
    check_for_missing_submodules a b
        = (b.filter (fun s => decide (s ∉ a))).length ∧
      ((∀ s ∈ b, s ∈ a) → check_for_missing_submodules a b = 0) := by
  have hmain : check_for_missing_submodules a b
      = (b.filter (fun s => decide (s ∉ a))).length := by
    rw [check_for_missing_submodules, foldl_missing_count a b 0, Nat.zero_add]
  refine ⟨hmain, fun h => ?_⟩
  rw [hmain]
  have hnil : b.filter (fun s => decide (s ∉ a)) = [] := by
    apply List.filter_eq_nil_iff.mpr
    intro s hs
    simp [h s hs]
  rw [hnil]
  rfl

/-- Witness for C6 at concrete inputs: declared `{a, b}`, on-disk
`{a, b, c}` gives the one undeclared error, and a declared-only disk state
gives zero. -/
theorem check_missing_counts_undeclared_w :
    check_for_missing_submodules [str "a", str "b"] [str "a", str "b"] = 0 :=
  (check_missing_counts_undeclared [str "a", str "b"] [str "a", str "b"]).2
    (by decide)

/-- C9: for every run whose validation completes with total count `ec`, the
exit status is 0 exactly when `ec = 0`, and is the literal 1 (the truth
value of `errors > 0`, not the count) whenever `ec > 0`. -/
theorem exit_code_is_error_flag (env : GitEnv) (ign : List Str) (sd : SpdxData)
    (m : Manifest) (ec : Nat) (h : validate_manifest env ign sd m = some ec) :
    (main_exit_code env ign sd m = some 0 ↔ ec = 0) ∧
      (0 < ec → main_exit_code env ign sd m = some 1) := by
  constructor
  · constructor
    · intro h0
      by_contra hne
      have hpos : 0 < ec := Nat.pos_of_ne_zero hne
      simp [main_exit_code, h, hpos] at h0
    · intro h0
      simp [main_exit_code, h, h0]
  · intro hpos
    simp [main_exit_code, h, hpos]

/-- The SPDX catalog used by the concrete witnesses. -/
def sdMIT : SpdxData := ⟨[str "MIT"], []⟩

/-- A git environment with no submodules, used by concrete witnesses. -/
def envEmpty : GitEnv := ⟨fun _ => false, fun _ => ⟨[], fun _ => none, []⟩, []⟩

/-- A complete manifest with no dependencies, used by concrete witnesses. -/
def mClean : Manifest :=
  ⟨some (str "proj"), some (str "1.0"), some (str "desc"), some (str "MIT"), none⟩

/-- Witness for C9: a manifest that validates with zero errors exits 0. -/
theorem exit_code_is_error_flag_w :
    (main_exit_code envEmpty [] sdMIT mClean = some 0 ↔ 0 = 0) ∧
      (0 < 0 → main_exit_code envEmpty [] sdMIT mClean = some 1) :=
  exit_code_is_error_flag envEmpty [] sdMIT mClean 0 (by decide)

/-- A dependency whose repository stanza lacks the `type` field. -/
def depNoType : Dependency :=
  ⟨some (str "dep"), some (str "v1"), some (str "MIT"),
   some ⟨none, some (str "https://example.com/x.git"), none⟩⟩

/-- A manifest containing `depNoType` and otherwise valid fields. -/
def mNoType : Manifest :=
  ⟨some (str "proj"), some (str "1.0"), some (str "desc"), some (str "MIT"),
   some [depNoType]⟩

/-- C2 (divergence evaluation): on a repository stanza that lacks `type`,
`validate_repository` raises `KeyError` at the `"git" != repo["type"]`
comparison right after counting the missing-field error, so it — and
`validate_manifest` around it — returns no count at all (`none`) instead of
counting the error and continuing. -/
theorem validate_repository_missing_type_raises :
    validate_repository envEmpty depNoType = none ∧
      validate_manifest envEmpty [] sdMIT mNoType = none := by
  constructor <;> rfl

/-- The 40-hex-character commit hash used by the submodule witnesses. -/
def sha40 : Str := str "aaaaaaaaaaaaaaaaaaaaaaaaaaaaaaaaaaaaaaaa"

/-- A submodule whose manifest version resolves only after lowercasing. -/
def subLowerOnly : Submodule :=
  { originUrl := str "git@example.com:x.git"
    resolve := fun r => if r = str "v1.0" then some sha40 else none
    headHexsha := sha40 }

/-- A git environment exposing `subLowerOnly` at every path. -/
def envLowerOnly : GitEnv := ⟨fun _ => true, fun _ => subLowerOnly, [str "lib/x"]⟩

/-- A dependency pinned to `V1.0`, which resolves only as `v1.0`. -/
def depUpperTag : Dependency :=
  ⟨some (str "x"), some (str "V1.0"), some (str "MIT"),
   some ⟨some (str "git"), some (str "git@example.com:x.git"), some (str "lib/x")⟩⟩

/-- C4 (divergence evaluation): when the declared version fails to resolve
as written but resolves after lowercasing, `validate_submodule_repo` reaches
`print_warning("...")` — a call with one argument to a function requiring
`(indent_level, warn_str)` — and raises `TypeError` (`none`) instead of
warning and completing with the lowercased resolution. -/
theorem validate_submodule_lowercase_fallback_raises :
    validate_submodule_repo envLowerOnly depUpperTag = none := by rfl

/-- A hexadecimal git commit hash: 40 lowercase hex digits. -/
def isHexSha (s : Str) : Bool :=
  decide (s.length = 40) && s.all (fun c => c.isDigit || (('a' ≤ c) && (c ≤ 'f')))

lemma hexsha_ne_unknown (s : Str) (h : isHexSha s = true) : s ≠ str "unknown" := by
  intro he
  rw [he] at h
  exact absurd h (by decide)

/-- C5: when neither the literal nor the lowercased version ref resolves,
the resolved hash is the string `"unknown"`, which differs from the
submodule's HEAD hash (a hexadecimal SHA), so exactly one revision-mismatch
error is recorded on top of the URL comparison's contribution. -/
theorem unresolved_version_always_mismatches (env : GitEnv)
    (nm lic ty : Option Str) (url version p : Str)
    (h1 : (env.submoduleAt p).resolve version = none)
    (h2 : (env.submoduleAt p).resolve (strLower version) = none)
    (h3 : isHexSha (env.submoduleAt p).headHexsha = true) :
    validate_submodule_repo env ⟨nm, some version, lic, some ⟨ty, some url, some p⟩⟩
      = some ((if strLower (env.submoduleAt p).originUrl = strLower url
                 then 0 else 1) + 1) := by
  have hne : (env.submoduleAt p).headHexsha ≠ str "unknown" :=
    hexsha_ne_unknown _ h3
  simp [validate_submodule_repo, h1, h2, hne]

/-- The submodule used by the C5 witness: nothing resolves, HEAD is a SHA. -/
def subNoRef : Submodule := ⟨str "git@example.com:x.git", fun _ => none, sha40⟩

/-- A git environment exposing `subNoRef` at every path. -/
def envNoRef : GitEnv := ⟨fun _ => true, fun _ => subNoRef, [str "lib/x"]⟩

/-- Witness for C5 at a concrete unresolvable version. -/
theorem unresolved_version_always_mismatches_w :
    validate_submodule_repo envNoRef
        ⟨some (str "x"), some (str "v9.9"), some (str "MIT"),
         some ⟨some (str "git"), some (str "git@example.com:x.git"),
               some (str "lib/x")⟩⟩
      = some ((if strLower (envNoRef.submoduleAt (str "lib/x")).originUrl
                   = strLower (str "git@example.com:x.git") then 0 else 1) + 1) :=
  unresolved_version_always_mismatches envNoRef (some (str "x")) (some (str "MIT"))
    (some (str "git")) (str "git@example.com:x.git") (str "v9.9") (str "lib/x")
    rfl rfl (by decide)

/-- C8: when the declared version resolves to a commit hash, the error count
is the sum of the URL component and the revision component, and the URL
component is 1 exactly when the two full URL strings differ after
lowercasing both — so URLs differing only in letter case contribute no
error. -/
theorem url_comparison_case_insensitive (env : GitEnv)
    (nm lic ty : Option Str) (url version p hash : Str)
    (h1 : (env.submoduleAt p).resolve version = some hash)
    (h2 : hash ≠ str "unknown") :
    validate_submodule_repo env ⟨nm, some version, lic, some ⟨ty, some url, some p⟩⟩
      = some ((if strLower (env.submoduleAt p).originUrl = strLower url
                 then 0 else 1)
              + (if (env.submoduleAt p).headHexsha = hash then 0 else 1)) := by
  simp [validate_submodule_repo, h1, h2]

/-- The submodule used by the C8 witness: one resolvable tag, HEAD at it. -/
def subCased : Submodule :=
  { originUrl := str "GIT@EXAMPLE.COM:X.git"
    resolve := fun r => if r = str "v1.0" then some sha40 else none
    headHexsha := sha40 }

/-- A git environment exposing `subCased` at every path. -/
def envCased : GitEnv := ⟨fun _ => true, fun _ => subCased, [str "lib/x"]⟩

/-- Witness for C8: declared and actual URLs differing only in case give a
zero URL component (here the total is 0 since HEAD matches the resolved
hash). -/
theorem url_comparison_case_insensitive_w :
    validate_submodule_repo envCased
        ⟨some (str "x"), some (str "v1.0"), some (str "MIT"),
         some ⟨some (str "git"), some (str "git@example.com:x.git"),
               some (str "lib/x")⟩⟩
      = some ((if strLower (envCased.submoduleAt (str "lib/x")).originUrl
                   = strLower (str "git@example.com:x.git") then 0 else 1)
              + (if (envCased.submoduleAt (str "lib/x")).headHexsha = sha40
                   then 0 else 1)) :=
  url_comparison_case_insensitive envCased (some (str "x")) (some (str "MIT"))
    (some (str "git")) (str "git@example.com:x.git") (str "v1.0") (str "lib/x")
    sha40 rfl (by decide)

end VerifyManifest
